import Mathlib

/-!
Shallow embedding of the view-type detection service (src/main.py) and proofs
about it.

Modeling conventions:
* Python floats are modeled as exact rationals (ℚ).  Every confidence value the
  program builds is a left-to-right float sum drawn from the increments 0.3 and
  0.2 (at most one 0.2, at most five terms); for these sums two values tie in
  float arithmetic exactly when they tie as rationals (an exact-rational tie
  forces the same multiset of addends, hence bit-identical floats), and distinct
  exact sums differ by at least 0.1, far above the accumulated rounding error,
  so every comparison the program performs has the same outcome in ℚ.
* Python regexes appearing in the source are alternations of literals or simple
  digit/whitespace forms; each is embedded as a dedicated left-to-right,
  non-overlapping scanner with Python's leftmost / first-alternative semantics
  and exact maximal-munch behavior (for these patterns greedy repetition with
  backtracking coincides with maximal munch, as no repeated class overlaps the
  character that must follow it).  Digits and whitespace are modeled as ASCII,
  which covers every string the proofs touch.
* A `Dict[str, Any]` is modeled by a structure holding the entries the code
  reads; an entry that may be missing is an `Option` (`.get(k, default)`
  becomes `Option.getD`, a bare `d[k]` raises `KeyError` when absent).
* Fallible code returns `Except PyError`; `ZeroDivisionError` is raised by
  `n / 0` on Python numbers, and the endpoint's `try/except` turns any raised
  error into an HTTP 500 response carrying `str(e)`.
-/

deriving instance DecidableEq for Except

set_option maxRecDepth 100000

namespace ViewType

/-- Result dictionary of `_extract_scale_from_texts`. -/
structure ScaleResult where
  scale_ratio : String
  scale_value : Option ℚ
  source : String
  detected_dimension : Option ℚ := none
deriving DecidableEq

/-- Result dictionary of `_detect_view_type_advanced`. -/
structure DetectResult where
  view_type : String
  confidence : ℚ
  reason : String
  scale : ScaleResult
  detected_keywords : List String
deriving DecidableEq

/-- An endpoint of a line; the code reads only the `x` entry, with default 0. -/
structure Point where
  x : Option ℚ := none
  y : Option ℚ := none
deriving DecidableEq

/-- A line; `p1` / `p2` default to the empty dict when missing. -/
structure Line where
  p1 : Option Point := none
  p2 : Option Point := none
deriving DecidableEq

/-- A rectangle; the code reads only `area`, with default 0. -/
structure Rectangle where
  area : Option ℚ := none
deriving DecidableEq

/-- The `drawings` dict: the code reads `rectangles` and `lines`, both
defaulting to the empty list when the key is missing. -/
structure Drawings where
  rectangles : List Rectangle := []
  lines : List Line := []
deriving DecidableEq

/-- One entry of a page's `texts` list: a dict whose `text` key may be
missing (`none`); `t["text"]` then raises `KeyError("text")`. -/
structure TextFragment where
  text : Option String
deriving DecidableEq

/-- PageData request model. -/
structure PageData where
  page_number : ℤ
  drawings : Drawings
  texts : List TextFragment
deriving DecidableEq

/-- ViewTypeRequest request model. -/
structure ViewTypeRequest where
  pages : List PageData
deriving DecidableEq

/-- One per-page record of the endpoint's response. -/
structure PageResult where
  page_number : ℤ
  view_type : String
  confidence : ℚ
  reason : String
  scale : ScaleResult
  detected_keywords : List String
deriving DecidableEq

/-- ViewTypeResponse response model. -/
structure ViewTypeResponse where
  pages : List PageResult
deriving DecidableEq

/-- The Python exceptions this code can raise. -/
inductive PyError where
  | keyError (key : String)
  | zeroDivisionError
deriving DecidableEq

/-- Rendering `str(e)` of the exceptions above. -/
def pyStr : PyError → String
  | .keyError k => "'" ++ k ++ "'"
  | .zeroDivisionError => "division by zero"

/-- FastAPI HTTPException as raised by the endpoint's error handler. -/
structure HTTPException where
  status_code : ℕ
  detail : String
deriving DecidableEq

/-! ### Regex scanning primitives -/

/-- ASCII whitespace, as matched by a regex `\s` on the strings we consider. -/
def pyIsSpace (c : Char) : Bool :=
  c == ' ' || c == '\t' || c == '\n' || c == '\r' || c == '\x0b' || c == '\x0c'

/-- Generic `re.findall` scanner: walk the text left to right; at each position
ask the position matcher `m` for a match (its capture and the matched length);
on a match, record the capture and resume after the matched text, otherwise
advance one character.  `fuel` only forces structural termination; it is always
called with at least the text's length, which suffices because every step
consumes at least one character. -/
def scanGo (m : List Char → Option (α × ℕ)) : ℕ → List Char → List α
  | _, [] => []
  | 0, _ :: _ => []
  | fuel + 1, c :: rest =>
    match m (c :: rest) with
    | some (a, len) => a :: scanGo m fuel ((c :: rest).drop (max len 1))
    | none => scanGo m fuel rest

/-- re.findall of the pattern embedded by the position matcher `m`. -/
def findall (m : List Char → Option (α × ℕ)) (l : List Char) : List α :=
  scanGo m l.length l

/-- Position matcher of an alternation of literals (`a|b|c`): Python tries the
alternatives in pattern order at each position, so the first alternative that
is a prefix of the remaining text matches; findall returns the matched text. -/
def altMatch (alts : List String) (l : List Char) : Option (String × ℕ) :=
  (alts.find? (fun a => a.data.isPrefixOf l)).map (fun a => (a, a.length))

/-- Position matcher of `1:(\d+)`: findall returns the digit capture. -/
def oneColonMatch : List Char → Option (String × ℕ)
  | c1 :: c2 :: rest =>
    if c1 = '1' ∧ c2 = ':' then
      let ds := rest.takeWhile Char.isDigit
      if ds.isEmpty then none else some (⟨ds⟩, 2 + ds.length)
    else none
  | _ => none

/-- Case-insensitive literal prefix test (re.IGNORECASE on a literal). -/
def ciPrefix (pat : List Char) (l : List Char) : Bool :=
  (l.take pat.length).map Char.toLower == pat

/-- Match `\s*(\d+):(\d+)` at the head of `rest`, returning both digit
captures and the matched length. -/
def ratioTail (rest : List Char) : Option ((String × String) × ℕ) :=
  let ws := rest.takeWhile pyIsSpace
  let r1 := rest.drop ws.length
  let ds1 := r1.takeWhile Char.isDigit
  if ds1.isEmpty then none
  else
    match r1.drop ds1.length with
    | ':' :: r2 =>
      let ds2 := r2.takeWhile Char.isDigit
      if ds2.isEmpty then none
      else some ((⟨ds1⟩, ⟨ds2⟩), ws.length + ds1.length + 1 + ds2.length)
    | _ => none

/-- Position matcher of `kw\s*(\d+):(\d+)` with re.IGNORECASE (used with
`kw = "schaal"` and `kw = "scale"`). -/
def keywordRatioMatch (kw : String) (l : List Char) : Option ((String × String) × ℕ) :=
  if ciPrefix kw.data l then
    (ratioTail (l.drop kw.length)).map (fun p => (p.1, kw.length + p.2))
  else none

/-- Position matcher of `(\d+)\s*unit` for a literal unit (`mm`, `cm`). -/
def unitMatch (unit : List Char) (l : List Char) : Option (String × ℕ) :=
  let ds := l.takeWhile Char.isDigit
  if ds.isEmpty then none
  else
    let r := l.drop ds.length
    let ws := r.takeWhile pyIsSpace
    if unit.isPrefixOf (r.drop ws.length) then
      some (⟨ds⟩, ds.length + ws.length + unit.length)
    else none

/-- Position matcher of `(\d+[,.]?\d*)\s*m`.  When the optional separator is
present but the remainder fails, the no-separator alternative also fails (the
separator character can satisfy neither `\d*`, `\s*` nor `m`), so the match is
determined by the maximal-munch path taken below. -/
def mFloatMatch (l : List Char) : Option (String × ℕ) :=
  let ds := l.takeWhile Char.isDigit
  if ds.isEmpty then none
  else
    match l.drop ds.length with
    | sep :: r2 =>
      if sep == ',' || sep == '.' then
        let ds2 := r2.takeWhile Char.isDigit
        let r3 := r2.drop ds2.length
        let ws := r3.takeWhile pyIsSpace
        match r3.drop ws.length with
        | 'm' :: _ => some (⟨ds ++ [sep] ++ ds2⟩, ds.length + 1 + ds2.length + ws.length + 1)
        | _ => none
      else
        let ws := (sep :: r2).takeWhile pyIsSpace
        match (sep :: r2).drop ws.length with
        | 'm' :: _ => some (⟨ds⟩, ds.length + ws.length + 1)
        | _ => none
    | [] => none

/-- Python substring test `needle in hay`. -/
def listContains (needle : List Char) : List Char → Bool
  | [] => needle.isEmpty
  | c :: rest => needle.isPrefixOf (c :: rest) || listContains needle rest

/-! ### Numeric parsing and rendering helpers -/

/-- Value of a nonempty ASCII digit string. -/
def digitsToNat (l : List Char) : ℕ := l.foldl (fun a c => 10 * a + (c.toNat - 48)) 0

/-- Python `int()` on a digit capture. -/
def parseNat (s : String) : ℕ := digitsToNat s.data

/-- Python `float()` on strings shaped `\d+(\.\d*)?` (the only shapes the
captures can take after the comma is replaced by a period). -/
def parseFloat (s : String) : ℚ :=
  let ip := s.data.takeWhile (fun c => c != '.')
  match s.data.drop ip.length with
  | _ :: frac => (digitsToNat ip : ℚ) + (digitsToNat frac : ℚ) / (10 : ℚ) ^ frac.length
  | [] => (digitsToNat ip : ℚ)

/-- Python `s.replace(',', '.')`. -/
def pyReplaceComma (s : String) : String := ⟨s.data.map (fun c => if c == ',' then '.' else c)⟩

/-- Python `int()` on a float / rational: truncation toward zero. -/
def pyInt (q : ℚ) : ℤ := Int.tdiv q.num q.den

/-- Python `round(x, 2)`: round half to even at two decimal places. -/
def roundHalfEven (q : ℚ) : ℤ :=
  if q - ⌊q⌋ < 1 / 2 then ⌊q⌋
  else if 1 / 2 < q - ⌊q⌋ then ⌊q⌋ + 1
  else if ⌊q⌋ % 2 = 0 then ⌊q⌋ else ⌊q⌋ + 1

/-- Python `round(x, 2)` on a rational. -/
def pyRound2 (q : ℚ) : ℚ := (roundHalfEven (q * 100) : ℚ) / 100

/-! ### Knowledge base -/

/-- VIEW_TYPE_PATTERNS: the ordered knowledge base; each regex (an alternation
of literals) is written as its ordered list of alternatives.  Python dict
iteration follows insertion order, so the category order below is the
evaluation order of the detection loop. -/
def VIEW_TYPE_PATTERNS : List (String × List (List String)) := [
  ("floor_plan", [
    ["woonkamer", "slaapkamer", "keuken", "badkamer", "toilet", "gang", "berging", "garage", "kelder", "zolder"],
    ["living", "bedroom", "kitchen", "bathroom", "hall", "storage", "garage", "basement", "attic"],
    ["woon", "slaap", "bad", "wc", "gang", "berg", "gar", "kel", "zol"],
    ["kamer", "room", "suite", "studio", "appartement", "apartment"]]),
  ("section", [
    ["doorsnede", "section", "doorsnee", "sectie", "profiel", "profile"],
    ["a-a", "b-b", "c-c", "d-d", "e-e", "f-f", "g-g", "h-h"],
    ["doorsnede", "section", "cut", "snede"]]),
  ("detail", [
    ["detail", "detaal", "uitvergroting", "enlargement", "detailering"],
    ["1:10", "1:5", "1:2", "1:1", "1:20", "1:50"],
    ["detail", "detail", "uitwerk", "enlargement"]]),
  ("installation", [
    ["wcd", "cai", "mv", "schakelaar", "thermostaat", "lichtpunt"],
    ["electrical", "plumbing", "ventilation", "switch", "thermostat", "light"],
    ["elektra", "sanitair", "ventilatie", "verwarming", "koeling"],
    ["socket", "outlet", "switch", "thermostat", "light", "ventilation"]]),
  ("component_table", [
    ["merk", "type", "afmeting", "brand", "dimension", "materiaal"],
    ["tabel", "table", "specificatie", "specification", "lijst", "list"],
    ["product", "component", "element", "onderdeel", "part"]]),
  ("elevation", [
    ["gevel", "elevation", "voorgevel", "achtergevel", "zijgevel"],
    ["facade", "front", "rear", "side", "elevation"],
    ["gevel", "elevation", "facade", "voor", "achter", "zij"]]),
  ("site_plan", [
    ["terrein", "site", "perceel", "plot", "grondplan"],
    ["terrain", "site", "plot", "ground", "landscape"],
    ["terrein", "site", "perceel", "grond", "land"]]),
  ("structural", [
    ["constructie", "structure", "fundering", "foundation"],
    ["beton", "concrete", "staal", "steel", "hout", "wood"],
    ["constructie", "structure", "fundering", "beton", "staal"]])]

/-- The fixed electrical symbol tokens of the installation heuristic. -/
def elecSymbols : List String := ["wcd", "lichtpunt", "schakelaar", "thermostaat"]

/-! ### Category Scorer -/

/-- The text-pattern loop of a category: each pattern whose findall is nonempty
extends the matched keywords by all its matches and adds 0.3 to the
confidence. -/
def textPhase : List (List String) → List Char → ℚ × List String → ℚ × List String
  | [], _, acc => acc
  | pat :: ps, allText, (confidence, matched) =>
    let found := findall (altMatch pat) allText
    if found.isEmpty then textPhase ps allText (confidence, matched)
    else textPhase ps allText (confidence + 0.3, matched ++ found)

/-- The x coordinate of a line endpoint: missing endpoint dicts and missing
`x` entries default to 0. -/
def pointX : Option Point → ℚ
  | none => 0
  | some p => p.x.getD 0

/-- Python `min()` of a nonempty list (the 0 default is never reached). -/
def minNat : List ℕ → ℕ
  | [] => 0
  | x :: xs => xs.foldl Nat.min x

/-- The layout-analysis if/elif chain of `_detect_view_type_advanced`,
applied to the (confidence, matched keywords) pair of the text phase. -/
def geomPhase (view_type : String) (allText : List Char) (drawings : Drawings)
    (ck : ℚ × List String) : ℚ × List String :=
  let confidence := ck.1
  let matched := ck.2
  if view_type == "floor_plan" then
    let large := drawings.rectangles.filter (fun r => decide (10000 < r.area.getD 0))
    if 2 < large.length then (confidence + 0.2, matched ++ ["room_layout"])
    else (confidence, matched)
  else if view_type == "section" then
    let vertical := drawings.lines.filter (fun l => decide (|pointX l.p2 - pointX l.p1| < 10))
    if 5 < vertical.length then (confidence + 0.2, matched ++ ["vertical_lines"])
    else (confidence, matched)
  else if view_type == "detail" then
    match findall oneColonMatch allText with
    | [] => (confidence, matched)
    | c :: cs =>
      let scales := (c :: cs).map parseNat
      if scales.any (· ≤ 20) then
        (confidence + 0.3, matched ++ ["large_scale_1:" ++ toString (minNat scales)])
      else (confidence, matched)
  else if view_type == "installation" then
    if elecSymbols.any (fun s => listContains s.data allText) then
      (confidence + 0.2, matched ++ ["electrical_symbols"])
    else (confidence, matched)
  else (confidence, matched)

/-- Score one category: the text-pattern loop followed by the category's
layout heuristic. -/
def scoreCategory (view_type : String) (patterns : List (List String))
    (allText : List Char) (drawings : Drawings) : ℚ × List String :=
  geomPhase view_type allText drawings (textPhase patterns allText (0, []))

/-! ### Classification orchestration -/

/-- Text Normalizer: `" ".join([text.lower() for text in texts])`. -/
def normalizedText (texts : List String) : List Char :=
  (String.intercalate " " (texts.map String.toLower)).data

/-- The raw joined text the Scale Extractor works on: `" ".join(texts)`. -/
def rawText (texts : List String) : List Char :=
  (String.intercalate " " texts).data

/-- The per-category scores of a page, in catalog order. -/
def categoryScores (texts : List String) (drawings : Drawings) :
    List (String × ℚ × List String) :=
  VIEW_TYPE_PATTERNS.map (fun c => (c.1, scoreCategory c.1 c.2 (normalizedText texts) drawings))

/-- The best-result loop: update the running quadruple (max confidence, best
view type, best reason, detected keywords) only on a strictly larger
confidence. -/
def bestFold : List (String × ℚ × List String) →
    ℚ × String × String × List String → ℚ × String × String × List String
  | [], acc => acc
  | (view_type, confidence, matched) :: rest, (maxConf, bestView, bestReason, detected) =>
    if maxConf < confidence then
      bestFold rest
        (confidence, view_type, "Pattern matches: " ++ String.intercalate ", " matched, matched)
    else bestFold rest (maxConf, bestView, bestReason, detected)

/-- The initial accumulator of the best-result loop. -/
def initAcc : ℚ × String × String × List String :=
  (0, "unknown", "No matching patterns detected", [])

/-! ### Scale Extractor -/

/-- The dimension-inference result for a detected size (in metres):
`scale_value = detected / 3.6` and `scale_ratio = "1:" + int(1/scale_value)`. -/
def dimensionResult (detected : ℚ) : ScaleResult :=
  let scale_value := detected / 3.6
  { scale_ratio := "1:" ++ toString (pyInt (1 / scale_value)),
    scale_value := some scale_value,
    source := "dimension_inference",
    detected_dimension := some detected }

/-- The three dimension-hint patterns, in source order. -/
inductive DimUnit where
  | mm
  | cm
  | m
deriving DecidableEq

/-- findall of one dimension-hint pattern. -/
def dimFindall : DimUnit → List Char → List String
  | .mm, l => findall (unitMatch "mm".data) l
  | .cm, l => findall (unitMatch "cm".data) l
  | .m, l => findall mFloatMatch l

/-- Unit conversion of a detected value to metres. -/
def dimConvert : DimUnit → ℚ → ℚ
  | .mm, q => q / 1000
  | .cm, q => q / 100
  | .m, q => q

/-- The `not_detected` fallback result. -/
def notDetected : ScaleResult :=
  { scale_ratio := "unknown", scale_value := none, source := "not_detected",
    detected_dimension := none }

/-- The dimension-hint loop: first pattern with a match wins, but a detected
size of 0 skips the division and falls through to the remaining patterns. -/
def dimPhase : List DimUnit → List Char → ScaleResult
  | [], _ => notDetected
  | u :: us, allText =>
    match dimFindall u allText with
    | [] => dimPhase us allText
    | m0 :: _ =>
      let detected := dimConvert u (parseFloat (pyReplaceComma m0))
      if 0 < detected then dimensionResult detected else dimPhase us allText

/-- Embedding of `_extract_scale_from_texts`: the explicit scale patterns
`1:(\d+)`, `schaal (\d+):(\d+)`, `scale (\d+):(\d+)` are tried in order on the
raw joined text (the first findall with a match wins and its first match is
used); a parsed denominator of 0 raises `ZeroDivisionError` (the explicit
branch has no zero guard).  Otherwise the dimension-hint loop runs. -/
def extract_scale_from_texts (texts : List String) : Except PyError ScaleResult :=
  let all_text := rawText texts
  match findall oneColonMatch all_text with
  | m0 :: _ =>
    let denominator := parseNat m0
    if denominator = 0 then .error .zeroDivisionError
    else .ok { scale_ratio := "1:" ++ toString denominator,
               scale_value := some (1 / (denominator : ℚ)),
               source := "explicit_scale", detected_dimension := none }
  | [] =>
    match findall (keywordRatioMatch "schaal") all_text with
    | p :: _ =>
      let numerator := parseNat p.1
      let denominator := parseNat p.2
      if denominator = 0 then .error .zeroDivisionError
      else .ok { scale_ratio := toString numerator ++ ":" ++ toString denominator,
                 scale_value := some ((numerator : ℚ) / (denominator : ℚ)),
                 source := "explicit_scale", detected_dimension := none }
    | [] =>
      match findall (keywordRatioMatch "scale") all_text with
      | p :: _ =>
        let numerator := parseNat p.1
        let denominator := parseNat p.2
        if denominator = 0 then .error .zeroDivisionError
        else .ok { scale_ratio := toString numerator ++ ":" ++ toString denominator,
                   scale_value := some ((numerator : ℚ) / (denominator : ℚ)),
                   source := "explicit_scale", detected_dimension := none }
      | [] => .ok (dimPhase [.mm, .cm, .m] all_text)

/-- Embedding of `_detect_view_type_advanced`. -/
def detect_view_type_advanced (texts : List String) (drawings : Drawings) :
    Except PyError DetectResult :=
  let best := bestFold (categoryScores texts drawings) initAcc
  match extract_scale_from_texts texts with
  | .error e => .error e
  | .ok scale =>
    .ok { view_type := best.2.1,
          confidence := pyRound2 (min best.1 1),
          reason := best.2.2.1,
          scale := scale,
          detected_keywords := best.2.2.2 }

/-! ### Endpoint -/

/-- Reading `t["text"]`: raises `KeyError("text")` when the key is missing. -/
def fragmentText : TextFragment → Except PyError String
  | ⟨some t⟩ => .ok t
  | ⟨none⟩ => .error (.keyError "text")

/-- The list comprehension `[t["text"] for t in page_data.texts]`. -/
def extractTexts : List TextFragment → Except PyError (List String)
  | [] => .ok []
  | f :: fs => do
    let t ← fragmentText f
    let ts ← extractTexts fs
    .ok (t :: ts)

/-- Process one page of the request body. -/
def processPage (page : PageData) : Except PyError PageResult := do
  let texts ← extractTexts page.texts
  let r ← detect_view_type_advanced texts page.drawings
  .ok { page_number := page.page_number, view_type := r.view_type,
        confidence := r.confidence, reason := r.reason, scale := r.scale,
        detected_keywords := r.detected_keywords }

/-- The page loop of the endpoint (runs inside one `try`). -/
def processPages : List PageData → Except PyError (List PageResult)
  | [] => .ok []
  | p :: ps => do
    let r ← processPage p
    let rs ← processPages ps
    .ok (r :: rs)

/-- Embedding of the `/detect-view-type/` endpoint: the whole page loop runs
inside one `try`; any raised error becomes an HTTP 500 whose detail is
`str(e)`. -/
def detect_view_type (request : ViewTypeRequest) : Except HTTPException ViewTypeResponse :=
  match processPages request.pages with
  | .ok results => .ok ⟨results⟩
  | .error e => .error ⟨500, pyStr e⟩

/-! ### Structure lemmas about the best-result loop -/

/-- Accumulator entries (category, confidence, matched keywords). -/
abbrev Entry := String × ℚ × List String

/-- The best-so-far accumulator (max confidence, view type, reason, keywords). -/
abbrev Acc := ℚ × String × String × List String

/-- The accumulator the loop installs when a category takes the lead. -/
def entryAcc (e : Entry) : Acc :=
  (e.2.1, e.1, "Pattern matches: " ++ String.intercalate ", " e.2.2, e.2.2)

theorem bestFold_cons (e : Entry) (rest : List Entry) (acc : Acc) :
    bestFold (e :: rest) acc =
      if acc.1 < e.2.1 then bestFold rest (entryAcc e) else bestFold rest acc := by
  rcases e with ⟨v, c, k⟩
  rcases acc with ⟨m, bv, br, bk⟩
  rfl

theorem bestFold_const (l : List Entry) (acc : Acc)
    (h : ∀ p ∈ l, p.2.1 ≤ acc.1) : bestFold l acc = acc := by
  induction l with
  | nil => rfl
  | cons e rest ih =>
    rw [bestFold_cons, if_neg (not_lt.mpr (h e (List.mem_cons_self e rest)))]
    exact ih (fun p hp => h p (List.mem_cons_of_mem e hp))

theorem bestFold_attainer (l : List Entry) :
    ∀ (acc : Acc) (i : ℕ) (hi : i < l.length),
      acc.1 < (l.get ⟨i, hi⟩).2.1 →
      (∀ j (hj : j < l.length), (l.get ⟨j, hj⟩).2.1 ≤ (l.get ⟨i, hi⟩).2.1) →
      (∀ j (hj : j < l.length), j < i → (l.get ⟨j, hj⟩).2.1 < (l.get ⟨i, hi⟩).2.1) →
      bestFold l acc = entryAcc (l.get ⟨i, hi⟩) := by
  induction l with
  | nil => intro acc i hi; exact absurd hi (by simp)
  | cons e rest ih =>
    intro acc i hi hlt hmax hstrict
    cases i with
    | zero =>
      have hlt0 : acc.1 < e.2.1 := hlt
      rw [bestFold_cons, if_pos hlt0]
      show bestFold rest (entryAcc e) = entryAcc e
      refine bestFold_const rest (entryAcc e) (fun p hp => ?_)
      obtain ⟨⟨j, hj⟩, rfl⟩ := List.mem_iff_get.mp hp
      exact hmax (j + 1) (Nat.succ_lt_succ hj)
    | succ k =>
      have h0 : e.2.1 < ((e :: rest).get ⟨k + 1, hi⟩).2.1 :=
        hstrict 0 (Nat.succ_pos _) (Nat.succ_pos k)
      rw [bestFold_cons]
      by_cases hc : acc.1 < e.2.1
      · rw [if_pos hc]
        show bestFold rest (entryAcc e) = entryAcc ((e :: rest).get ⟨k + 1, hi⟩)
        exact ih (entryAcc e) k (Nat.lt_of_succ_lt_succ hi) h0
          (fun j hj => hmax (j + 1) (Nat.succ_lt_succ hj))
          (fun j hj hjk => hstrict (j + 1) (Nat.succ_lt_succ hj) (Nat.succ_lt_succ hjk))
      · rw [if_neg hc]
        exact ih acc k (Nat.lt_of_succ_lt_succ hi) hlt
          (fun j hj => hmax (j + 1) (Nat.succ_lt_succ hj))
          (fun j hj hjk => hstrict (j + 1) (Nat.succ_lt_succ hj) (Nat.succ_lt_succ hjk))

theorem bestFold_first_attainer (e : Entry) (suf : List Entry) :
    ∀ (pre : List Entry) (acc : Acc), acc.1 < e.2.1 →
      (∀ q ∈ pre, q.2.1 < e.2.1) →
      (∀ q ∈ suf, q.2.1 ≤ e.2.1) →
      bestFold (pre ++ e :: suf) acc = entryAcc e := by
  intro pre
  induction pre with
  | nil =>
    intro acc hacc _ hsuf
    rw [List.nil_append, bestFold_cons, if_pos hacc]
    exact bestFold_const _ _ (fun q hq => hsuf q hq)
  | cons x pre ih =>
    intro acc hacc hpre hsuf
    rw [List.cons_append, bestFold_cons]
    by_cases hc : acc.1 < x.2.1
    · rw [if_pos hc]
      exact ih (entryAcc x) (hpre x (List.mem_cons_self x pre))
        (fun q hq => hpre q (List.mem_cons_of_mem x hq)) hsuf
    · rw [if_neg hc]
      exact ih acc hacc (fun q hq => hpre q (List.mem_cons_of_mem x hq)) hsuf

theorem bestFold_fst_ge (l : List Entry) (acc : Acc) : acc.1 ≤ (bestFold l acc).1 := by
  induction l generalizing acc with
  | nil => exact le_rfl
  | cons e rest ih =>
    rw [bestFold_cons]
    by_cases hc : acc.1 < e.2.1
    · rw [if_pos hc]
      exact le_trans (le_of_lt hc) (ih (entryAcc e))
    · rw [if_neg hc]
      exact ih acc

theorem bestFold_cases (l : List Entry) (acc : Acc) :
    (bestFold l acc = acc ∧ ∀ p ∈ l, p.2.1 ≤ acc.1) ∨
    (∃ p ∈ l, bestFold l acc = entryAcc p ∧ acc.1 < p.2.1) := by
  induction l generalizing acc with
  | nil => exact .inl ⟨rfl, by simp⟩
  | cons e rest ih =>
    rw [bestFold_cons]
    by_cases hc : acc.1 < e.2.1
    · rw [if_pos hc]
      rcases ih (entryAcc e) with ⟨heq, _⟩ | ⟨p, hp, heq, hlt⟩
      · exact .inr ⟨e, List.mem_cons_self e rest, heq, hc⟩
      · exact .inr ⟨p, List.mem_cons_of_mem e hp, heq, lt_trans hc hlt⟩
    · rw [if_neg hc]
      rcases ih acc with ⟨heq, hall⟩ | ⟨p, hp, heq, hlt⟩
      · refine .inl ⟨heq, fun p hp => ?_⟩
        rcases List.mem_cons.mp hp with rfl | hp
        · exact not_lt.mp hc
        · exact hall p hp
      · exact .inr ⟨p, List.mem_cons_of_mem e hp, heq, hlt⟩

/-! ### The closed form of the text-pattern loop -/

/-- Number of the category's patterns that match at least once. -/
def matchingCount (ps : List (List String)) (t : List Char) : ℕ :=
  ps.countP (fun pat => !(findall (altMatch pat) t).isEmpty)

/-- All matched substrings, pattern by pattern, duplicates preserved. -/
def allMatches (ps : List (List String)) (t : List Char) : List String :=
  (ps.map (fun pat => findall (altMatch pat) t)).flatten

theorem textPhase_cons (pat : List String) (ps : List (List String)) (t : List Char)
    (c : ℚ) (k : List String) :
    textPhase (pat :: ps) t (c, k) =
      if (findall (altMatch pat) t).isEmpty then textPhase ps t (c, k)
      else textPhase ps t (c + 0.3, k ++ findall (altMatch pat) t) := rfl

theorem textPhase_closed (ps : List (List String)) (t : List Char) :
    ∀ (c : ℚ) (k : List String),
      textPhase ps t (c, k) = (c + 0.3 * matchingCount ps t, k ++ allMatches ps t) := by
  induction ps with
  | nil => intro c k; simp [textPhase, matchingCount, allMatches]
  | cons pat ps ih =>
    intro c k
    rw [textPhase_cons]
    by_cases h : (findall (altMatch pat) t).isEmpty
    · rw [if_pos h, ih]
      have hnil : findall (altMatch pat) t = [] := List.isEmpty_iff.mp h
      simp only [Prod.mk.injEq]
      constructor
      · simp [matchingCount, List.countP_cons, h]
      · simp [allMatches, hnil]
    · rw [if_neg h, ih]
      simp only [Prod.mk.injEq]
      constructor
      · have : matchingCount (pat :: ps) t = matchingCount ps t + 1 := by
          simp [matchingCount, List.countP_cons, h]
        rw [this]
        push_cast
        ring
      · simp [allMatches, List.append_assoc]

theorem textPhase_pos (ps : List (List String)) (t : List Char)
    (h : 0 < (textPhase ps t (0, [])).1) : (textPhase ps t (0, [])).2 ≠ [] := by
  rw [textPhase_closed] at h ⊢
  simp only [zero_add, List.nil_append] at h ⊢
  have hc : 0 < matchingCount ps t := by
    rcases Nat.eq_zero_or_pos (matchingCount ps t) with h0 | h0
    · rw [h0] at h; norm_num at h
    · exact h0
  obtain ⟨pat, hmem, hpat⟩ := List.countP_pos_iff.mp hc
  intro hnil
  have hall := List.flatten_eq_nil_iff.mp hnil (findall (altMatch pat) t)
    (List.mem_map_of_mem _ hmem)
  rw [hall] at hpat
  simp at hpat

/-! ### Scorer shape lemmas -/

theorem geomPhase_shape (n : String) (t : List Char) (d : Drawings) (c : ℚ)
    (k : List String) :
    ∃ b kg, geomPhase n t d (c, k) = (c + b, k ++ kg) ∧ (kg = [] → b = 0) := by
  unfold geomPhase
  dsimp only
  repeat' split
  all_goals
    first
      | (refine ⟨0, [], ?_, fun _ => rfl⟩
         simp
         done)
      | (refine ⟨_, _, rfl, ?_⟩
         simp
         done)

theorem scoreCategory_pos (n : String) (ps : List (List String)) (t : List Char)
    (d : Drawings) (h : 0 < (scoreCategory n ps t d).1) :
    (scoreCategory n ps t d).2 ≠ [] := by
  have htpos := textPhase_pos ps t
  rcases htp : textPhase ps t (0, []) with ⟨c, k⟩
  rw [htp] at htpos
  unfold scoreCategory at h ⊢
  rw [htp] at h ⊢
  obtain ⟨b, kg, heq, himp⟩ := geomPhase_shape n t d c k
  rw [heq] at h ⊢
  rcases eq_or_ne kg [] with rfl | hkg
  · rw [himp rfl, add_zero] at h
    have hk : k ≠ [] := htpos h
    simpa using hk
  · simp [List.append_eq_nil, hkg]

theorem categoryScores_fst (texts : List String) (d : Drawings) :
    ∀ p ∈ categoryScores texts d, p.1 ≠ "unknown" := by
  intro p hp
  obtain ⟨c, hc, rfl⟩ := List.mem_map.mp hp
  have hall : ∀ q ∈ VIEW_TYPE_PATTERNS, q.1 ≠ "unknown" := by decide
  exact hall c hc

/-! ### Inversion of the advanced detection result -/

theorem detect_ok_fields (texts : List String) (d : Drawings) (r : DetectResult)
    (h : detect_view_type_advanced texts d = .ok r) :
    r.view_type = (bestFold (categoryScores texts d) initAcc).2.1 ∧
    r.confidence = pyRound2 (min (bestFold (categoryScores texts d) initAcc).1 1) ∧
    r.reason = (bestFold (categoryScores texts d) initAcc).2.2.1 ∧
    r.detected_keywords = (bestFold (categoryScores texts d) initAcc).2.2.2 := by
  unfold detect_view_type_advanced at h
  rcases hex : extract_scale_from_texts texts with e | s <;> rw [hex] at h
  · exact absurd h (by simp)
  · simp only [Except.ok.injEq] at h
    subst h
    exact ⟨rfl, rfl, rfl, rfl⟩

/-! ### Rounding lemmas -/

theorem roundHalfEven_nonneg (q : ℚ) (h : 0 ≤ q) : 0 ≤ roundHalfEven q := by
  unfold roundHalfEven
  have h0 : (0 : ℤ) ≤ ⌊q⌋ := Int.floor_nonneg.mpr h
  split_ifs <;> omega

theorem roundHalfEven_le (q : ℚ) (B : ℤ) (h : q ≤ B) : roundHalfEven q ≤ B := by
  unfold roundHalfEven
  have hfl : ⌊q⌋ ≤ B := by
    have := Int.floor_le_floor h
    simpa using this
  have hsucc : 1 / 2 ≤ q - ⌊q⌋ → ⌊q⌋ + 1 ≤ B := by
    intro hhalf
    rcases eq_or_lt_of_le hfl with heq | hlt
    · exfalso
      have hcast : (⌊q⌋ : ℚ) = (B : ℚ) := by exact_mod_cast heq
      linarith
    · omega
  split_ifs with h1 h2 h3
  · exact hfl
  · exact hsucc (le_of_lt h2)
  · exact hfl
  · exact hsucc (not_lt.mp h1)

theorem pyRound2_bounds (q : ℚ) (h0 : 0 ≤ q) (h1 : q ≤ 1) :
    0 ≤ pyRound2 q ∧ pyRound2 q ≤ 1 := by
  unfold pyRound2
  have hn : 0 ≤ roundHalfEven (q * 100) := roundHalfEven_nonneg _ (by positivity)
  have hb : roundHalfEven (q * 100) ≤ 100 := roundHalfEven_le _ 100 (by push_cast; linarith)
  constructor
  · have : (0 : ℚ) ≤ (roundHalfEven (q * 100) : ℚ) := by exact_mod_cast hn
    positivity
  · rw [div_le_one (by norm_num)]
    exact_mod_cast hb

theorem pyRound2_two_decimals (q : ℚ) : (pyRound2 q * 100).den = 1 := by
  unfold pyRound2
  rw [div_mul_cancel₀ _ (by norm_num : (100 : ℚ) ≠ 0)]
  exact Rat.den_intCast _

/-! ### The reported reason of a winning category is never the default -/

theorem reason_ne (s : String) :
    "Pattern matches: " ++ s ≠ "No matching patterns detected" := by
  intro h
  have hd : ("Pattern matches: " ++ s).data.head? =
      ("No matching patterns detected" : String).data.head? :=
    congrArg (fun t => t.data.head?) h
  rw [String.data_append] at hd
  rw [show ("Pattern matches: ".data ++ s.data).head? = some 'P' from rfl] at hd
  rw [show ("No matching patterns detected" : String).data.head? = some 'N' from rfl] at hd
  exact absurd hd (by decide)

/-! ### Scanner lemmas -/

theorem scanGo_fuel (m : List Char → Option (α × ℕ)) :
    ∀ (f₁ : ℕ) (l : List Char) (f₂ : ℕ), l.length ≤ f₁ → l.length ≤ f₂ →
      scanGo m f₁ l = scanGo m f₂ l := by
  intro f₁
  induction f₁ with
  | zero =>
    intro l f₂ h1 _
    have : l = [] := List.length_eq_zero.mp (Nat.le_zero.mp h1)
    subst this
    cases f₂ <;> rfl
  | succ f ih =>
    intro l f₂ h1 h2
    cases l with
    | nil => cases f₂ <;> rfl
    | cons c rest =>
      cases f₂ with
      | zero => simp at h2
      | succ g =>
        show scanGo m (f + 1) (c :: rest) = scanGo m (g + 1) (c :: rest)
        unfold scanGo
        cases hm : m (c :: rest) with
        | none =>
          exact ih rest g (by simpa using h1) (by simpa using h2)
        | some al =>
          rcases al with ⟨a, len⟩
          have hdl : ((c :: rest).drop (max len 1)).length ≤ rest.length := by
            rw [List.length_drop]
            simp only [List.length_cons]
            omega
          show a :: scanGo m f ((c :: rest).drop (max len 1)) =
            a :: scanGo m g ((c :: rest).drop (max len 1))
          congr 1
          exact ih _ g (le_trans hdl (by simpa using h1))
            (le_trans hdl (by simpa using h2))

theorem findall_cons_none (m : List Char → Option (α × ℕ)) (c : Char)
    (rest : List Char) (h : m (c :: rest) = none) :
    findall m (c :: rest) = findall m rest := by
  show scanGo m (rest.length + 1) (c :: rest) = scanGo m rest.length rest
  conv_lhs => unfold scanGo
  rw [h]

theorem findall_cons_some (m : List Char → Option (α × ℕ)) (c : Char)
    (rest : List Char) (a : α) (len : ℕ) (h : m (c :: rest) = some (a, len)) :
    findall m (c :: rest) = a :: findall m ((c :: rest).drop (max len 1)) := by
  show scanGo m (rest.length + 1) (c :: rest) = _
  conv_lhs => unfold scanGo
  rw [h]
  show a :: scanGo m rest.length ((c :: rest).drop (max len 1)) = _
  congr 1
  refine scanGo_fuel m rest.length _ _ ?_ le_rfl
  rw [List.length_drop]
  simp only [List.length_cons]
  omega

theorem findall_append_none (m : List Char → Option (α × ℕ)) (u v : List Char)
    (h : ∀ i < u.length, m ((u ++ v).drop i) = none) :
    findall m (u ++ v) = findall m v := by
  induction u with
  | nil => simp
  | cons c u ih =>
    have h0 : m (c :: (u ++ v)) = none := by
      have := h 0 (by simp)
      simpa using this
    rw [List.cons_append, findall_cons_none m _ _ h0]
    refine ih (fun i hi => ?_)
    have := h (i + 1) (by simpa using Nat.succ_lt_succ hi)
    simpa using this

/-! ### Inversion helpers for the monadic endpoint code -/

theorem except_bind_ok {ε α β : Type} (x : Except ε α) (f : α → Except ε β) (b : β)
    (h : (x >>= f) = .ok b) : ∃ a, x = .ok a ∧ f a = .ok b := by
  cases x with
  | error e => exact absurd h (by simp [Bind.bind, Except.bind])
  | ok a => exact ⟨a, rfl, by simpa [Bind.bind, Except.bind] using h⟩

theorem extractTexts_not_ok (fr : List TextFragment) (frag : TextFragment)
    (hmem : frag ∈ fr) (hnone : frag.text = none) :
    ∀ ts, extractTexts fr ≠ .ok ts := by
  induction fr with
  | nil => cases hmem
  | cons f fs ih =>
    intro ts hok
    unfold extractTexts at hok
    obtain ⟨t, ht, hrest⟩ := except_bind_ok _ _ _ hok
    obtain ⟨ts2, hts2, _⟩ := except_bind_ok _ _ _ hrest
    rcases List.mem_cons.mp hmem with rfl | hmem2
    · rcases frag with ⟨tf⟩
      rw [show (⟨tf⟩ : TextFragment).text = tf from rfl] at hnone
      subst hnone
      exact absurd ht (by simp [fragmentText])
    · exact ih hmem2 ts2 hts2

theorem processPage_ok_texts (page : PageData) (r : PageResult)
    (h : processPage page = .ok r) : ∃ ts, extractTexts page.texts = .ok ts := by
  unfold processPage at h
  obtain ⟨ts, hts, _⟩ := except_bind_ok _ _ _ h
  exact ⟨ts, hts⟩

theorem processPages_ok (pages : List PageData) (rs : List PageResult)
    (h : processPages pages = .ok rs) : ∀ p ∈ pages, ∃ r, processPage p = .ok r := by
  induction pages generalizing rs with
  | nil => intro p hp; cases hp
  | cons q qs ih =>
    intro p hp
    unfold processPages at h
    obtain ⟨r, hr, hrest⟩ := except_bind_ok _ _ _ h
    obtain ⟨rs2, hrs2, _⟩ := except_bind_ok _ _ _ hrest
    rcases List.mem_cons.mp hp with rfl | hp2
    · exact ⟨r, hr⟩
    · exact ih rs2 hrs2 p hp2

theorem isPrefixOf_nil (s : List Char) : List.isPrefixOf ([] : List Char) s = true := by
  cases s <;> rfl

theorem isPrefixOf_cons (a b : Char) (as bs : List Char) :
    List.isPrefixOf (a :: as) (b :: bs) = (a == b && List.isPrefixOf as bs) := rfl

/-- One step of the dimension-hint loop when its pattern has a first match. -/
theorem dimPhase_cons_match (u : DimUnit) (us : List DimUnit) (l : List Char)
    (m0 : String) (tail : List String) (h : dimFindall u l = m0 :: tail) :
    dimPhase (u :: us) l =
      if 0 < dimConvert u (parseFloat (pyReplaceComma m0))
      then dimensionResult (dimConvert u (parseFloat (pyReplaceComma m0)))
      else dimPhase us l := by
  conv_lhs => unfold dimPhase
  rw [h]

/-- When none of the explicit scale patterns matches, the extractor reduces to
the dimension-hint loop (and in particular cannot raise). -/
theorem extract_scale_dimension (texts : List String)
    (h1 : findall oneColonMatch (rawText texts) = [])
    (h2 : findall (keywordRatioMatch "schaal") (rawText texts) = [])
    (h3 : findall (keywordRatioMatch "scale") (rawText texts) = []) :
    extract_scale_from_texts texts = .ok (dimPhase [.mm, .cm, .m] (rawText texts)) := by
  unfold extract_scale_from_texts
  simp only [h1, h2, h3]

/-! ### The claims -/

/-- C1: the winning category is the first category in catalog order to reach
the maximum accumulated confidence: the running best is updated only under a
strict greater-than comparison, so the entry all of whose predecessors score
strictly below it and all of whose successors score at most it (that is, the
first category to reach the maximum) is reported as `view_type` whenever its
confidence is nonzero; with all scores at most 0 the report is `"unknown"`.
In particular, of two categories with equal nonzero confidence the one
evaluated earlier in catalog order wins. -/
theorem claim_C1 (texts : List String) (d : Drawings) (r : DetectResult)
    (h : detect_view_type_advanced texts d = .ok r) :
    ((∀ p ∈ categoryScores texts d, p.2.1 ≤ 0) → r.view_type = "unknown") ∧
    (∀ (pre : List Entry) (e : Entry) (suf : List Entry),
      categoryScores texts d = pre ++ e :: suf →
      0 < e.2.1 →
      (∀ q ∈ pre, q.2.1 < e.2.1) →
      (∀ q ∈ suf, q.2.1 ≤ e.2.1) →
      r.view_type = e.1) := by
  obtain ⟨hv, _, _, _⟩ := detect_ok_fields texts d r h
  constructor
  · intro hall
    rw [hv, bestFold_const _ _ (fun p hp => hall p hp)]
    rfl
  · intro pre e suf hdecomp hpos hpre hsuf
    rw [hv, hdecomp, bestFold_first_attainer e suf pre initAcc hpos hpre hsuf]
    rfl

/-- Witness for C1 at a concrete tie: on the page `["doorsnede detail"]` the
categories `section` and `detail` both score 0.6 (nonzero), and the earlier
one, `section`, is reported. -/
theorem claim_C1_witness :
    (⟨"section", 0.6, "Pattern matches: doorsnede, doorsnede", notDetected,
        ["doorsnede", "doorsnede"]⟩ : DetectResult).view_type = "section" :=
  (claim_C1 ["doorsnede detail"] {}
      ⟨"section", 0.6, "Pattern matches: doorsnede, doorsnede", notDetected,
        ["doorsnede", "doorsnede"]⟩
      (by with_unfolding_all decide)).2
    [("floor_plan", 0, [])]
    ("section", 0.6, ["doorsnede", "doorsnede"])
    [("detail", 0.6, ["detail", "detail"]), ("installation", 0, []),
      ("component_table", 0, []), ("elevation", 0, []), ("site_plan", 0, []),
      ("structural", 0, [])]
    (by with_unfolding_all decide)
    (by with_unfolding_all decide)
    (by with_unfolding_all decide)
    (by with_unfolding_all decide)

/-- C2: for every page result the three conditions are pairwise equivalent —
`view_type = "unknown"`, `detected_keywords = []`, and
`reason = "No matching patterns detected"` — and `view_type` is `"unknown"`
exactly when no category accumulated confidence greater than 0. -/
theorem claim_C2 (texts : List String) (d : Drawings) (r : DetectResult)
    (h : detect_view_type_advanced texts d = .ok r) :
    (r.view_type = "unknown" ↔ r.detected_keywords = []) ∧
    (r.view_type = "unknown" ↔ r.reason = "No matching patterns detected") ∧
    (r.view_type = "unknown" ↔ ∀ p ∈ categoryScores texts d, p.2.1 ≤ 0) := by
  obtain ⟨hv, _, hr, hk⟩ := detect_ok_fields texts d r h
  rcases bestFold_cases (categoryScores texts d) initAcc with ⟨heq, hall⟩ | ⟨p, hp, heq, hlt⟩
  · rw [heq] at hv hr hk
    have h1 : r.view_type = "unknown" := hv
    have h2 : r.detected_keywords = [] := hk
    have h3 : r.reason = "No matching patterns detected" := hr
    have h4 : ∀ p ∈ categoryScores texts d, p.2.1 ≤ 0 := fun p hp => hall p hp
    exact ⟨iff_of_true h1 h2, iff_of_true h1 h3, iff_of_true h1 h4⟩
  · rw [heq] at hv hr hk
    have hpos : 0 < p.2.1 := hlt
    have hname : r.view_type ≠ "unknown" := by
      rw [hv]
      exact categoryScores_fst texts d p hp
    have hkne : r.detected_keywords ≠ [] := by
      rw [hk]
      obtain ⟨cpair, _, rfl⟩ := List.mem_map.mp hp
      exact scoreCategory_pos _ _ _ _ hpos
    have hrne : r.reason ≠ "No matching patterns detected" := by
      rw [hr]
      exact reason_ne _
    have hscores : ¬ ∀ q ∈ categoryScores texts d, q.2.1 ≤ 0 :=
      fun hall2 => absurd hpos (not_lt.mpr (hall2 p hp))
    exact ⟨iff_of_false hname hkne, iff_of_false hname hrne, iff_of_false hname hscores⟩

/-- Witness for C2 at the empty page: the result is `"unknown"` with empty
keywords, the default reason, and all-zero category scores. -/
theorem claim_C2_witness :
    (⟨"unknown", 0, "No matching patterns detected", notDetected, []⟩ : DetectResult).view_type
        = "unknown" ↔
      (⟨"unknown", 0, "No matching patterns detected", notDetected, []⟩ : DetectResult).detected_keywords
        = [] :=
  (claim_C2 [] {} ⟨"unknown", 0, "No matching patterns detected", notDetected, []⟩
    (by with_unfolding_all decide)).1

/-- C4: the reported confidence lies in [0, 1] and is an exact multiple of
1/100 (two decimal places); it equals the cap-then-round of the running
maximum of the raw scores, applied once at the very end, while the winning
view type is selected from the uncapped scores.  The concrete conjunct shows
a case where the selection compares uncapped candidates 1.1 and 1.2 (both
above the cap, the later, larger one winning) and only the final winner is
capped, to 1.0. -/
theorem claim_C4 :
    (∀ (texts : List String) (d : Drawings) (r : DetectResult),
      detect_view_type_advanced texts d = .ok r →
      0 ≤ r.confidence ∧ r.confidence ≤ 1 ∧ (r.confidence * 100).den = 1 ∧
      r.confidence = pyRound2 (min (bestFold (categoryScores texts d) initAcc).1 1) ∧
      r.view_type = (bestFold (categoryScores texts d) initAcc).2.1) ∧
    ((categoryScores ["doorsnede a-a detail 1:10"]
        { lines := List.replicate 6 { p1 := some { x := some 0 }, p2 := some { x := some 0 } } }).map
        (fun p => (p.1, p.2.1)) =
      [("floor_plan", 0), ("section", 1.1), ("detail", 1.2), ("installation", 0),
        ("component_table", 0), ("elevation", 0), ("site_plan", 0), ("structural", 0)]) ∧
    (detect_view_type_advanced ["doorsnede a-a detail 1:10"]
        { lines := List.replicate 6 { p1 := some { x := some 0 }, p2 := some { x := some 0 } } } =
      .ok ⟨"detail", 1, "Pattern matches: detail, 1:10, detail, large_scale_1:10",
            ⟨"1:10", some (1/10), "explicit_scale", none⟩,
            ["detail", "1:10", "detail", "large_scale_1:10"]⟩) := by
  refine ⟨?_, by with_unfolding_all decide, by with_unfolding_all decide⟩
  intro texts d r h
  obtain ⟨hv, hc, _, _⟩ := detect_ok_fields texts d r h
  have h0 : (0 : ℚ) ≤ (bestFold (categoryScores texts d) initAcc).1 :=
    bestFold_fst_ge _ initAcc
  have hmin0 : (0 : ℚ) ≤ min (bestFold (categoryScores texts d) initAcc).1 1 :=
    le_min h0 zero_le_one
  have hmin1 : min (bestFold (categoryScores texts d) initAcc).1 1 ≤ 1 := min_le_right _ _
  obtain ⟨hb0, hb1⟩ := pyRound2_bounds _ hmin0 hmin1
  rw [hc]
  exact ⟨hb0, hb1, pyRound2_two_decimals _, rfl, hv⟩

/-- Witness for C4: the bounds discharged on the `["woonkamer"]` page, whose
confidence is 0.9. -/
theorem claim_C4_witness :
    0 ≤ (⟨"floor_plan", 0.9, "Pattern matches: woonkamer, woon, kamer", notDetected,
        ["woonkamer", "woon", "kamer"]⟩ : DetectResult).confidence :=
  (claim_C4.1 ["woonkamer"] {}
    ⟨"floor_plan", 0.9, "Pattern matches: woonkamer, woon, kamer", notDetected,
      ["woonkamer", "woon", "kamer"]⟩
    (by with_unfolding_all decide)).1

/-- C3 counterexample: in a two-page batch whose second page has a text
fragment without a `text` field, the endpoint fails the WHOLE request with a
single HTTP 500 (`KeyError('text')`); the first page — which classifies fine
on its own, as the second conjunct shows — receives no result at all, so one
page's failure does abort the batch, contrary to the claim. -/
theorem claim_C3_counterexample :
    detect_view_type ⟨[⟨1, {}, [⟨some "woonkamer"⟩]⟩, ⟨2, {}, [⟨none⟩]⟩]⟩ =
        .error ⟨500, "'text'"⟩ ∧
    detect_view_type ⟨[⟨1, {}, [⟨some "woonkamer"⟩]⟩]⟩ =
        .ok ⟨[⟨1, "floor_plan", 0.9, "Pattern matches: woonkamer, woon, kamer",
          notDetected, ["woonkamer", "woon", "kamer"]⟩]⟩ := by
  constructor <;> with_unfolding_all decide

/-- C3 (amended): when any page of a batch has a text fragment missing its
`text` field, the endpoint reports failure for the entire batch with an
explicit invalid-input signal — an HTTP 500 whose detail is the string of the
raised error — and no page (the faulty one or its siblings) receives a
classification result. -/
theorem claim_C3_amended (request : ViewTypeRequest)
    (h : ∃ page ∈ request.pages, ∃ frag ∈ page.texts, frag.text = none) :
    ∃ detail, detect_view_type request = .error ⟨500, detail⟩ := by
  obtain ⟨page, hpage, frag, hfrag, hnone⟩ := h
  have hs : ∀ rs, processPages request.pages ≠ .ok rs := by
    intro rs hok
    obtain ⟨r, hr⟩ := processPages_ok request.pages rs hok page hpage
    obtain ⟨ts, hts⟩ := processPage_ok_texts page r hr
    exact extractTexts_not_ok page.texts frag hfrag hnone ts hts
  unfold detect_view_type
  rcases hp : processPages request.pages with e | rs
  · exact ⟨pyStr e, rfl⟩
  · exact absurd hp (hs rs)

/-- Witness for the amended C3 at the two-page batch of the counterexample. -/
theorem claim_C3_witness :
    ∃ detail, detect_view_type ⟨[⟨1, {}, [⟨some "woonkamer"⟩]⟩, ⟨2, {}, [⟨none⟩]⟩]⟩ =
      .error ⟨500, detail⟩ :=
  claim_C3_amended ⟨[⟨1, {}, [⟨some "woonkamer"⟩]⟩, ⟨2, {}, [⟨none⟩]⟩]⟩
    ⟨⟨2, {}, [⟨none⟩]⟩, by with_unfolding_all decide, ⟨none⟩, by decide, rfl⟩

/-- C5: each text pattern of a category that matches at least once contributes
exactly +0.3 — per matching pattern, not per occurrence — and the matched
keyword list is the concatenation of every pattern's matched substrings, in
order and without de-duplication.  The concrete conjunct: on the page
`["bad badkamer"]` the floor_plan patterns 1, 3, 4 match (pattern 3 twice),
the confidence is 3 × 0.3 = 0.9, and the keyword list keeps the duplicate
`"bad"`. -/
theorem claim_C5 :
    (∀ (ps : List (List String)) (t : List Char),
      textPhase ps t (0, []) = (0.3 * (matchingCount ps t : ℚ), allMatches ps t)) ∧
    (categoryScores ["bad badkamer"] {}).head? =
      some ("floor_plan", 0.9, ["badkamer", "bad", "bad", "kamer"]) := by
  constructor
  · intro ps t
    rw [textPhase_closed]
    simp
  · with_unfolding_all decide

/-- C6: the floor_plan geometry bonus is strict — +0.2 and the token
`"room_layout"` are added exactly when strictly more than 2 rectangles have
area strictly greater than 10000 — and on the page
`["Slaapkamer 1", "3.6 x 4.2 m"]` with exactly two rectangles of areas 15000
and 16000 the page is classified floor_plan with confidence 0.9 ≥ 0.3 and the
bonus token is absent. -/
theorem claim_C6 :
    (∀ (t : List Char) (d : Drawings) (c : ℚ) (k : List String),
      geomPhase "floor_plan" t d (c, k) =
        (c + (if 2 < (d.rectangles.filter (fun r => decide (10000 < r.area.getD 0))).length
                then 0.2 else 0),
         k ++ (if 2 < (d.rectangles.filter (fun r => decide (10000 < r.area.getD 0))).length
                then ["room_layout"] else []))) ∧
    (∃ r, detect_view_type_advanced ["Slaapkamer 1", "3.6 x 4.2 m"]
        { rectangles := [⟨some 15000⟩, ⟨some 16000⟩] } = .ok r ∧
      r.view_type = "floor_plan" ∧ 0.3 ≤ r.confidence ∧
      "room_layout" ∉ r.detected_keywords) := by
  constructor
  · intro t d c k
    unfold geomPhase
    dsimp only
    rw [if_pos (show ("floor_plan" == "floor_plan") = true from rfl)]
    split_ifs with hcount
    · rfl
    · simp
  · refine ⟨⟨"floor_plan", 0.9, "Pattern matches: slaapkamer, slaap, kamer",
      ⟨"1:0", some (7/6), "dimension_inference", some (21/5)⟩,
      ["slaapkamer", "slaap", "kamer"]⟩, ?_, rfl, ?_, ?_⟩
    · with_unfolding_all decide
    · with_unfolding_all decide
    · with_unfolding_all decide

/-- C10: the explicit-scale branch has no zero guard: on a page whose text
contains `"1:0"` the parsed denominator 0 is divided into 1 and a
`ZeroDivisionError` is raised, so classification of the page errors instead
of returning a result, and the endpoint turns it into an HTTP 500 — unlike
the dimension-inference branch, which checks the value before dividing. -/
theorem claim_C10 :
    extract_scale_from_texts ["1:0"] = .error .zeroDivisionError ∧
    detect_view_type_advanced ["1:0"] {} = .error .zeroDivisionError ∧
    detect_view_type ⟨[⟨1, {}, [⟨some "1:0"⟩]⟩]⟩ =
      .error ⟨500, "division by zero"⟩ := by
  refine ⟨?_, ?_, ?_⟩ <;> with_unfolding_all decide

/-- C9: in the dimension-inference loop, a first match that parses (after unit
conversion) to a detected value of 0 makes that pattern yield no result and
extraction fall through to the remaining patterns — no division is performed
and no error is raised: the extractor still returns an `ok` result determined
by the later patterns, which bottoms out in the `not_detected` record. -/
theorem claim_C9 :
    (∀ (u : DimUnit) (us : List DimUnit) (l : List Char) (cap : String)
        (rest : List String),
      dimFindall u l = cap :: rest →
      dimConvert u (parseFloat (pyReplaceComma cap)) = 0 →
      dimPhase (u :: us) l = dimPhase us l) ∧
    (∀ texts : List String,
      findall oneColonMatch (rawText texts) = [] →
      findall (keywordRatioMatch "schaal") (rawText texts) = [] →
      findall (keywordRatioMatch "scale") (rawText texts) = [] →
      extract_scale_from_texts texts = .ok (dimPhase [.mm, .cm, .m] (rawText texts))) ∧
    (∀ l : List Char, dimPhase [] l = notDetected) := by
  refine ⟨?_, fun texts h1 h2 h3 => extract_scale_dimension texts h1 h2 h3, fun _ => rfl⟩
  intro u us l cap rest hfind hzero
  rw [dimPhase_cons_match u us l cap rest hfind, hzero, if_neg (lt_irrefl (0 : ℚ))]

/-- Witness for C9 on the page `["0 mm"]`: the mm pattern matches with value
0, is skipped, and the extractor returns the later patterns' result (which is
`not_detected`) instead of raising. -/
theorem claim_C9_witness :
    dimPhase [.mm, .cm, .m] (("0 mm").data) = dimPhase [.cm, .m] (("0 mm").data) ∧
    extract_scale_from_texts ["0 mm"] = .ok (dimPhase [.mm, .cm, .m] (rawText ["0 mm"])) :=
  ⟨claim_C9.1 .mm [.cm, .m] (("0 mm").data) "0" [] (by with_unfolding_all decide)
      (by with_unfolding_all decide),
    claim_C9.2.1 ["0 mm"] (by with_unfolding_all decide) (by with_unfolding_all decide)
      (by with_unfolding_all decide)⟩

/-- C7 counterexample: the page `["schaal 1:1000"]` contains the substring
`"schaal 1:100"` with no earlier occurrence of the `1:N` notation (no match
of the `1:(\d+)` pattern starts before it), yet the extractor returns
`"1:1000"` with value 1/1000, not `"1:100"` with value 1/100 — the greedy
digit capture extends past the claimed occurrence. -/
theorem claim_C7_counterexample :
    rawText ["schaal 1:1000"] = [] ++ ("schaal 1:100").data ++ ['0'] ∧
    (∀ i < 7, oneColonMatch ((rawText ["schaal 1:1000"]).drop i) = none) ∧
    extract_scale_from_texts ["schaal 1:1000"] =
      .ok ⟨"1:1000", some (1/1000), "explicit_scale", none⟩ ∧
    "1:1000" ≠ "1:100" := by
  refine ⟨?_, ?_, ?_, ?_⟩ <;> with_unfolding_all decide

/-- C7 (amended): when the raw joined text decomposes as
`p ++ "schaal 1:100" ++ s` where no match of the `1:(\d+)` pattern starts
before the contained `1:100` (position `p.length + 7`) and the occurrence is
not immediately followed by a further digit, the extractor returns
scale_ratio `"1:100"`, scale_value 1/100 and source `explicit_scale` — the
`1:(\d+)` pattern is tried first and its first match wins, so the
`schaal`-pattern branch is never consulted. -/
theorem claim_C7_amended (texts : List String) (p s : List Char)
    (hdecomp : rawText texts = p ++ ("schaal 1:100").data ++ s)
    (hearlier : ∀ i < p.length + 7, oneColonMatch ((rawText texts).drop i) = none)
    (hnext : ∀ c, s.head? = some c → c.isDigit = false) :
    extract_scale_from_texts texts =
      .ok ⟨"1:100", some (1/100), "explicit_scale", none⟩ := by
  have hassoc : rawText texts = (p ++ ("schaal ").data) ++ (("1:100").data ++ s) := by
    rw [hdecomp, show ("schaal 1:100").data = ("schaal ").data ++ ("1:100").data from rfl]
    simp [List.append_assoc]
  have hlen : (p ++ ("schaal ").data).length = p.length + 7 := by simp
  have hs : s.takeWhile Char.isDigit = [] := by
    cases s with
    | nil => rfl
    | cons c cs =>
      have hc := hnext c rfl
      simp [List.takeWhile_cons, hc]
  have hmatch : oneColonMatch ('1' :: ':' :: '1' :: '0' :: '0' :: s) = some ("100", 5) := by
    unfold oneColonMatch
    dsimp only
    rw [if_pos ⟨rfl, rfl⟩]
    have htw : ('1' :: '0' :: '0' :: s : List Char).takeWhile Char.isDigit =
        ['1', '0', '0'] := by
      rw [List.takeWhile_cons, if_pos (by decide : Char.isDigit '1' = true),
        List.takeWhile_cons, if_pos (by decide : Char.isDigit '0' = true),
        List.takeWhile_cons, if_pos (by decide : Char.isDigit '0' = true), hs]
    rw [htw]
    rfl
  have hskip : findall oneColonMatch (rawText texts) =
      findall oneColonMatch (("1:100").data ++ s) := by
    rw [hassoc]
    refine findall_append_none _ _ _ (fun i hi => ?_)
    rw [← hassoc]
    exact hearlier i (by rw [hlen] at hi; exact hi)
  have hfind : findall oneColonMatch (rawText texts) =
      "100" :: findall oneColonMatch (('1' :: ':' :: '1' :: '0' :: '0' :: s).drop (max 5 1)) := by
    rw [hskip]
    show findall oneColonMatch ('1' :: ':' :: '1' :: '0' :: '0' :: s) = _
    exact findall_cons_some _ _ _ _ _ hmatch
  unfold extract_scale_from_texts
  dsimp only
  rw [hfind]
  dsimp only
  with_unfolding_all decide

/-- Witness for the amended C7 on the page `["schaal 1:100"]` itself. -/
theorem claim_C7_witness :
    extract_scale_from_texts ["schaal 1:100"] =
      .ok ⟨"1:100", some (1/100), "explicit_scale", none⟩ :=
  claim_C7_amended ["schaal 1:100"] [] []
    (by with_unfolding_all decide)
    (by with_unfolding_all decide)
    (fun c hc => by simp at hc)

/-- C8: when the raw joined text decomposes as `p ++ "3600 mm" ++ s` with no
match of the millimetre pattern `(\d+)\s*mm` starting inside `p` and no
explicit scale pattern matching anywhere, the extractor infers the dimension
3.6 m (3600 divided by 1000), scale_value 1.0 (= 3.6 / 3.6 against the
assumed 3.6 m reference room dimension), scale_ratio `"1:1"`, and source
`dimension_inference`. -/
theorem claim_C8 (texts : List String) (p s : List Char)
    (hdecomp : rawText texts = p ++ ("3600 mm").data ++ s)
    (h1 : findall oneColonMatch (rawText texts) = [])
    (h2 : findall (keywordRatioMatch "schaal") (rawText texts) = [])
    (h3 : findall (keywordRatioMatch "scale") (rawText texts) = [])
    (hearlier : ∀ i < p.length, unitMatch (("mm").data) ((rawText texts).drop i) = none) :
    extract_scale_from_texts texts =
      .ok ⟨"1:1", some 1, "dimension_inference", some 3.6⟩ := by
  rw [extract_scale_dimension texts h1 h2 h3]
  have hassoc : rawText texts = p ++ (("3600 mm").data ++ s) := by
    rw [hdecomp]
    simp [List.append_assoc]
  have hpref : List.isPrefixOf (("mm").data) ('m' :: 'm' :: s) = true := by
    rw [show (("mm").data : List Char) = ['m', 'm'] from rfl,
      isPrefixOf_cons, isPrefixOf_cons, isPrefixOf_nil]
    decide
  have hmatch : unitMatch (("mm").data) ('3' :: '6' :: '0' :: '0' :: ' ' :: 'm' :: 'm' :: s) =
      some ("3600", 7) := by
    show (if List.isPrefixOf (("mm").data) ('m' :: 'm' :: s) = true
        then some (("3600" : String), (7 : ℕ)) else none) = some ("3600", 7)
    rw [hpref, if_pos rfl]
  have hskip : findall (unitMatch (("mm").data)) (rawText texts) =
      findall (unitMatch (("mm").data)) (("3600 mm").data ++ s) := by
    rw [hassoc]
    refine findall_append_none _ _ _ (fun i hi => ?_)
    rw [← hassoc]
    exact hearlier i hi
  have hfind : dimFindall .mm (rawText texts) =
      "3600" :: findall (unitMatch (("mm").data))
        (('3' :: '6' :: '0' :: '0' :: ' ' :: 'm' :: 'm' :: s).drop (max 7 1)) := by
    show findall (unitMatch (("mm").data)) (rawText texts) = _
    rw [hskip]
    show findall (unitMatch (("mm").data)) ('3' :: '6' :: '0' :: '0' :: ' ' :: 'm' :: 'm' :: s) = _
    exact findall_cons_some _ _ _ _ _ hmatch
  rw [dimPhase_cons_match _ _ _ _ _ hfind]
  rw [show dimConvert DimUnit.mm (parseFloat (pyReplaceComma "3600")) = 18 / 5 from by
    with_unfolding_all decide]
  rw [if_pos (by norm_num : (0 : ℚ) < 18 / 5)]
  with_unfolding_all decide

/-- Witness for C8 on the page `["3600 mm"]` itself. -/
theorem claim_C8_witness :
    extract_scale_from_texts ["3600 mm"] =
      .ok ⟨"1:1", some 1, "dimension_inference", some 3.6⟩ :=
  claim_C8 ["3600 mm"] [] []
    (by with_unfolding_all decide)
    (by with_unfolding_all decide)
    (by with_unfolding_all decide)
    (by with_unfolding_all decide)
    (fun i hi => absurd hi (Nat.not_lt_zero i))

end ViewType
